import Mathlib

/-!
Verification of the Posts-Analyzer service: a shallow embedding of the
analysis and filtered-retrieval engine (`src/services/posts_analyzer.py`,
`src/db/crud/posts.py`, `src/api/v1/endpoints/posts.py`) together with
theorems settling the specification's claims about it.

Modelling conventions:
* Machine integers are `Nat`; Python floats are modelled as `ℚ` (all the
  arithmetic the claims mention is exact ratio arithmetic plus rounding to
  two decimals).
* The NLTK tokenizer (`word_tokenize` / `sent_tokenize`) and its stop-word
  lists are external collaborators of the repository; the spec treats them
  as a pluggable `Tokenizer` capability, so the embedding is parametric in
  them and the theorems hold for every tokenizer.
* The async record store is modelled as an explicit state (`Db`) threaded
  through the operations; a fallible write is an `Except` result, and the
  store's ability to fail a given write transiently is made explicit as a
  `failing_writes` component of the state.
* `asyncio.gather` (no `return_exceptions`) is modelled by running every
  fanned-out task (siblings are not cancelled, their store effects happen)
  and then propagating the first task failure, which is exactly its
  documented semantics for the awaiting caller.
* JSON serialisation of analysis payloads (`json.dumps` / `json.loads`) is
  modelled as the identity on the structured payload value.
-/

namespace PostsApp

/-! ## Text primitives (the cleaning pipeline of `PostsAnalyzer`) -/

/-- A word character in the sense of the regex class used by the service
(the `[^\w\s]` replacement and the `#(\w+)` hashtag scan): alphanumeric or
underscore (ASCII model of Python's `\w`). -/
def isWordChar (c : Char) : Bool := c.isAlphanum || c = '_'

/-- Model of Python `str.isalpha`: nonempty and every character alphabetic. -/
def pyIsAlpha (s : String) : Bool := !s.data.isEmpty && s.data.all Char.isAlpha

/-- `re.sub(r'[^\w\s]', ' ', text.lower())`: lower-case the text, then replace
every character that is neither a word character nor whitespace by a space. -/
def cleanText (text : String) : String :=
  String.mk ((text.data.map Char.toLower).map
    (fun c => if isWordChar c || c.isWhitespace then c else ' '))

/-- Distinct elements in order of first occurrence, skipping anything in
`seen` (models the key order of a Python `Counter`, which is insertion =
first-occurrence order). -/
def firstOccsAux (seen : List String) : List String → List String
  | [] => []
  | w :: ws =>
    if seen.contains w then firstOccsAux seen ws
    else w :: firstOccsAux (w :: seen) ws

def firstOccs (ws : List String) : List String := firstOccsAux [] ws

/-- `Counter(ws)` as an association list in first-occurrence key order. -/
def countPairs (ws : List String) : List (String × Nat) :=
  (firstOccs ws).map (fun w => (w, ws.count w))

/-- Descending-count order used by `Counter.most_common`: a stable sort by
count descending keeps equal counts in first-encountered order. -/
def countGe (a b : String × Nat) : Prop := b.2 ≤ a.2

instance : DecidableRel countGe := fun a b => inferInstanceAs (Decidable (b.2 ≤ a.2))

instance : IsTotal (String × Nat) countGe := ⟨fun a b => Nat.le_total b.2 a.2⟩

instance : IsTrans (String × Nat) countGe := ⟨fun _ _ _ h1 h2 => Nat.le_trans h2 h1⟩

/-- All (word, count) pairs sorted by descending count, equal counts kept in
first-occurrence order (stable insertion sort). -/
def rankedPairs (ws : List String) : List (String × Nat) :=
  List.insertionSort countGe (countPairs ws)

/-- `Counter.most_common(n)`. -/
def mostCommon (n : Nat) (ws : List String) : List (String × Nat) :=
  (rankedPairs ws).take n

/-- Python `round` to the nearest integer, ties to even (banker's rounding),
on the exact rational model of the float. -/
def pyRound (x : ℚ) : ℤ :=
  if x - ⌊x⌋ < 1 / 2 then ⌊x⌋
  else if 1 / 2 < x - ⌊x⌋ then ⌊x⌋ + 1
  else if Even ⌊x⌋ then ⌊x⌋ else ⌊x⌋ + 1

/-- Python `round(x, 2)`. -/
def pyRound2 (x : ℚ) : ℚ := (pyRound (100 * x) : ℚ) / 100

/-- The hashtag scan `re.findall(r'#(\w+)', text)`: left-to-right,
non-overlapping, each match the maximal nonempty run of word characters
right after a `#`; matches reported in order of appearance, duplicates and
casing preserved.  `acc = some cs` holds the (reversed) word characters of a
candidate match currently being read. -/
def hashAux : Option (List Char) → List Char → List String
  | some (c :: cs), [] => [String.mk ((c :: cs).reverse)]
  | _, [] => []
  | some cs, c :: t =>
    if isWordChar c then hashAux (some (c :: cs)) t
    else
      (match cs with
       | [] => []
       | _ :: _ => [String.mk cs.reverse])
      ++ hashAux (if c = '#' then some [] else none) t
  | none, c :: t => hashAux (if c = '#' then some [] else none) t

def findHashtags (text : String) : List String := hashAux none text.data

/-! ## The tokenizer collaborator and the analyzer service -/

/-- The pluggable tokenization capability consumed by the analyzer (NLTK's
`word_tokenize` / `sent_tokenize` in the source, external to the repo). -/
structure Tokenizer where
  wordTokenize : String → List String
  sentTokenize : String → List String

/-- Default for `Settings.MAX_WORKERS` (`src/core/config.py`). -/
def MAX_WORKERS : Nat := 4

/-- Default for `Settings.BATCH_SIZE` (`src/core/config.py`). -/
def BATCH_SIZE : Nat := 100

/-- The `PostsAnalyzer` service configuration: tokenizer, the two configured
stop-word lists, and the worker/batch limits. -/
structure PostsAnalyzer where
  tok : Tokenizer
  russian_stopwords : List String
  english_stopwords : List String
  batch_size : Nat := BATCH_SIZE
  max_workers : Nat := MAX_WORKERS

/-- `self.all_stopwords = self.russian_stopwords.union(self.english_stopwords)`. -/
def allStopwords (A : PostsAnalyzer) : List String :=
  A.russian_stopwords ++ A.english_stopwords

/-- One entry of the word-frequency table. -/
structure WordFrequency where
  word : String
  count : Nat
  frequency : ℚ
  deriving DecidableEq, Repr

/-- Result of `_analyze_word_frequency`. -/
structure WordFreqResult where
  total_unique_words : Nat
  total_words_after_filtering : Nat
  word_frequencies : List WordFrequency
  deriving DecidableEq, Repr

/-- Result of `_analyze_text_stats`. -/
structure TextStats where
  word_count : Nat
  char_count : Nat
  sentence_count : Nat
  avg_word_length : ℚ
  avg_sentence_length : ℚ
  deriving DecidableEq, Repr

/-- Result of `_extract_tags`. -/
structure TagsResult where
  extracted_tags : List String
  hashtags : List String
  deriving DecidableEq, Repr

/-- The tokens retained by the cleaning pipeline: tokenize the cleaned
lower-cased text, keep alphabetic tokens not in the combined stop-word set. -/
def filteredWords (A : PostsAnalyzer) (text : String) : List String :=
  ((A.tok.wordTokenize (cleanText text)).filter
    (fun w => pyIsAlpha w && !((allStopwords A).contains w)))

/-- `PostsAnalyzer._analyze_word_frequency`. -/
def analyze_word_frequency (A : PostsAnalyzer) (text : String) : WordFreqResult :=
  let fw := filteredWords A text
  let total := fw.length
  { total_unique_words := (firstOccs fw).length
    total_words_after_filtering := total
    word_frequencies :=
      (mostCommon 20 fw).map (fun p =>
        { word := p.1
          count := p.2
          frequency := if total > 0 then (p.2 : ℚ) / total else 0 }) }

/-- `PostsAnalyzer._analyze_text_stats`. -/
def analyze_text_stats (A : PostsAnalyzer) (text : String) : TextStats :=
  let sentences := A.tok.sentTokenize text
  let words := (A.tok.wordTokenize text).filter pyIsAlpha
  let word_count := words.length
  let sentence_count := sentences.length
  { word_count := word_count
    char_count := text.length
    sentence_count := sentence_count
    avg_word_length :=
      pyRound2 (if word_count > 0
        then ((words.map String.length).sum : ℚ) / word_count else 0)
    avg_sentence_length :=
      pyRound2 (if sentence_count > 0
        then (word_count : ℚ) / sentence_count else 0) }

/-- `PostsAnalyzer._extract_tags`. -/
def extract_tags (A : PostsAnalyzer) (text : String) : TagsResult :=
  let fw := filteredWords A text
  { extracted_tags := (mostCommon 10 fw).map Prod.fst
    hashtags := findHashtags text }

end PostsApp

namespace PostsApp

/-! ## Data model and record store (`src/db/models`, `src/db/crud/posts.py`) -/

/-- `Category` row (fields the engine consults). -/
structure Category where
  id : Nat
  name : String
  deriving DecidableEq, Repr

/-- `Post` row (fields the engine consults; the derived search vector is
modelled by the abstract full-text matcher parameter `ft` below). -/
structure Post where
  id : Nat
  category_id : Nat
  content : String
  title : Option String
  deriving DecidableEq, Repr

/-- The serialized analysis payload.  The source stores `json.dumps` of one
of the three analysis dictionaries; serialisation is modelled as identity on
the structured value. -/
inductive AnalysisValue where
  | wordFreq (r : WordFreqResult)
  | textStats (r : TextStats)
  | tags (r : TagsResult)
  deriving DecidableEq, Repr

/-- `PostAnalysis` row.  `created_at` is the store clock at insertion. -/
structure PostAnalysis where
  post_id : Nat
  analysis_type : String
  result : AnalysisValue
  created_at : Nat
  deriving DecidableEq, Repr

/-- `PostAnalysisCreate` schema. -/
structure PostAnalysisCreate where
  post_id : Nat
  analysis_type : String
  result : AnalysisValue
  deriving DecidableEq, Repr

/-- The record-store state.  `failing_writes` makes explicit which analysis
inserts the external store would fail transiently (spec §7 `StoreError`);
`clock` is a monotone creation-timestamp source. -/
structure Db where
  posts : List Post
  categories : List Category
  analyses : List PostAnalysis
  failing_writes : List (Nat × String) := []
  clock : Nat := 0
  deriving DecidableEq, Repr

/-- Opaque failure surfaced from the record store. -/
inductive StoreErr where
  | storeErr
  deriving DecidableEq, Repr

/-- Errors surfaced by the HTTP endpoints: `HTTPException(404)`,
`HTTPException(400)` carrying the invalid kind and the valid set, and a
propagated store failure. -/
inductive ApiError where
  | notFound (post_id : Nat)
  | badRequest (invalid_kind : String) (valid_kinds : List String)
  | storeFailure (e : StoreErr)
  deriving DecidableEq, Repr

instance instDecEqExcept {e a : Type} [DecidableEq e] [DecidableEq a] :
    DecidableEq (Except e a)
  | .error x, .error y =>
    if h : x = y then .isTrue (h ▸ rfl)
    else .isFalse (fun hh => h (Except.error.inj hh))
  | .error _, .ok _ => .isFalse (fun hh => Except.noConfusion hh)
  | .ok _, .error _ => .isFalse (fun hh => Except.noConfusion hh)
  | .ok x, .ok y =>
    if h : x = y then .isTrue (h ▸ rfl)
    else .isFalse (fun hh => h (Except.ok.inj hh))

/-- `PostFilterParams` (`src/schemas/posts.py`): `limit` is constrained to
`1..100` and `offset` to `>= 0` by the schema validators. -/
structure PostFilterParams where
  limit : Nat := 10
  offset : Nat := 0
  category_id : Option Nat := none
  category_name : Option String := none
  search_query : Option String := none
  use_fulltext : Bool := true
  deriving DecidableEq, Repr

/-- The store's language-aware full-text operator (`search_vector @@
plainto_tsquery(...)`), external to the engine: an abstract predicate from
query string and post. -/
def FullText : Type := String → Post → Bool

/-- Case-insensitive substring test: model of SQL `ILIKE '%q%'`. -/
def likeAux (needle : List Char) : List Char → Bool
  | [] => needle.isEmpty
  | c :: t => needle.isPrefixOf (c :: t) || likeAux needle t

def ilikeContains (q s : String) : Bool :=
  likeAux (q.data.map Char.toLower) (s.data.map Char.toLower)

/-- `_apply_post_filters`: the conjunction of the active predicates.  A
`category_name` filter is an inner join to `Category` plus name equality; an
empty (falsy) `search_query` contributes no predicate; a NULL title never
matches `ILIKE`. -/
def postMatches (db : Db) (ft : FullText) (f : PostFilterParams) (p : Post) : Bool :=
  (match f.category_id with
   | some cid => p.category_id == cid
   | none => true)
  && (match f.category_name with
      | some n => db.categories.any (fun c => c.id == p.category_id && c.name == n)
      | none => true)
  && (match f.search_query with
      | none => true
      | some q =>
        if q = "" then true
        else if f.use_fulltext then ft q p
        else ilikeContains q p.content
          || (match p.title with
              | some t => ilikeContains q t
              | none => false))

/-- `get_posts_count`: the total with the same predicates, no pagination. -/
def get_posts_count (db : Db) (ft : FullText) (f : PostFilterParams) : Nat :=
  (db.posts.filter (postMatches db ft f)).length

/-- `get_filtered_posts`: the page (offset/limit over store order) plus the
unpaginated total. -/
def get_filtered_posts (db : Db) (ft : FullText) (f : PostFilterParams) :
    List Post × Nat :=
  (((db.posts.filter (postMatches db ft f)).drop f.offset).take f.limit,
   get_posts_count db ft f)

/-- `get_post`: lookup by id, `None` when absent. -/
def get_post (db : Db) (post_id : Nat) : Option Post :=
  db.posts.find? (fun p => p.id == post_id)

/-- `create_post_analysis`: appends a new analysis row (a single committed
insert); fails with a store error exactly when the external store fails the
write.  No validation of `analysis_type` is performed here. -/
def create_post_analysis (db : Db) (a : PostAnalysisCreate) :
    Except StoreErr (PostAnalysis × Db) :=
  if db.failing_writes.contains (a.post_id, a.analysis_type) then
    .error .storeErr
  else
    .ok (⟨a.post_id, a.analysis_type, a.result, db.clock⟩,
      { db with
        analyses := db.analyses ++ [⟨a.post_id, a.analysis_type, a.result, db.clock⟩]
        clock := db.clock + 1 })

/-- Rows matching a `(post_id, analysis_type)` pair (the `WHERE` clause of
`get_latest_post_analysis`). -/
def matchingAnalyses (db : Db) (post_id : Nat) (kind : String) : List PostAnalysis :=
  db.analyses.filter (fun r => r.post_id == post_id && r.analysis_type == kind)

/-- `ORDER BY created_at DESC LIMIT 1`: the matching row with the greatest
creation timestamp (first such row on ties). -/
def pickLatest : Option PostAnalysis → List PostAnalysis → Option PostAnalysis
  | acc, [] => acc
  | none, r :: rest => pickLatest (some r) rest
  | some m, r :: rest =>
    pickLatest (some (if m.created_at < r.created_at then r else m)) rest

/-- `get_latest_post_analysis`: latest row for the pair, `None` for absence. -/
def get_latest_post_analysis (db : Db) (post_id : Nat) (kind : String) :
    Option PostAnalysis :=
  pickLatest none (matchingAnalyses db post_id kind)

end PostsApp

namespace PostsApp

/-! ## Batch analysis coordinator (`PostsAnalyzer` orchestration methods) -/

/-- The valid analysis kinds (`valid_types` in the endpoint). -/
def valid_types : List String := ["word_frequency", "text_stats", "tags"]

/-- The dispatch of `_analyze_post` on one kind name: the three recognized
kinds run the corresponding pure analysis, anything else is skipped with a
warning (`None`). -/
def analyzeOne (A : PostsAnalyzer) (content : String) (t : String) :
    Option AnalysisValue :=
  if t = "word_frequency" then some (.wordFreq (analyze_word_frequency A content))
  else if t = "text_stats" then some (.textStats (analyze_text_stats A content))
  else if t = "tags" then some (.tags (extract_tags A content))
  else none

/-- The per-kind loop of `_analyze_post`: accumulate the computed analyses;
when `save` is set, persist each computed kind through
`create_post_analysis`, propagating a failed write as an exception (rows
already committed stay committed). -/
def analyzePostGo (A : PostsAnalyzer) (post : Post) (save : Bool) :
    List String → Db → List (String × AnalysisValue) →
    Except StoreErr (List (String × AnalysisValue)) × Db
  | [], db, acc => (.ok acc, db)
  | t :: ts, db, acc =>
    match analyzeOne A post.content t with
    | none => analyzePostGo A post save ts db acc
    | some v =>
      if save then
        match create_post_analysis db
          { post_id := post.id, analysis_type := t, result := v } with
        | .error e => (.error e, db)
        | .ok (_, db') => analyzePostGo A post save ts db' (acc ++ [(t, v)])
      else analyzePostGo A post save ts db (acc ++ [(t, v)])

/-- The per-post result dictionary `{post_id, analyses}`. -/
structure PostResult where
  post_id : Nat
  analyses : List (String × AnalysisValue)
  deriving DecidableEq, Repr

/-- `PostsAnalyzer._analyze_post`. -/
def _analyze_post (A : PostsAnalyzer) (db : Db) (post : Post)
    (analysis_types : List String) (save_results : Bool) :
    Except StoreErr PostResult × Db :=
  match analyzePostGo A post save_results analysis_types db [] with
  | (.ok acc, db') => (.ok { post_id := post.id, analyses := acc }, db')
  | (.error e, db') => (.error e, db')

/-- Fan out one task per candidate post.  Every task runs (a failing task
does not cancel its siblings, and their store writes still commit); each
task's own outcome is kept. -/
def analyzeAllPosts (A : PostsAnalyzer) (analysis_types : List String)
    (save_results : Bool) :
    List Post → Db → List (Except StoreErr PostResult) × Db
  | [], db => ([], db)
  | p :: ps, db =>
    let (r, db') := _analyze_post A db p analysis_types save_results
    let (rs, db'') := analyzeAllPosts A analysis_types save_results ps db'
    (r :: rs, db'')

/-- `asyncio.gather` without `return_exceptions`: the awaiting caller gets
the list of results if every task succeeded, else the first failure is
raised. -/
def gatherResults : List (Except StoreErr PostResult) →
    Except StoreErr (List PostResult)
  | [] => .ok []
  | .error e :: _ => .error e
  | .ok r :: rest => (gatherResults rest).map (fun l => r :: l)

/-- The run metadata dictionary of `analyze_filtered_posts`. -/
structure BatchMetadata where
  total_posts : Nat
  processed_posts : Nat
  analysis_types : List String
  deriving DecidableEq, Repr

/-- `if not analysis_types:` — `None` or an empty list selects all kinds. -/
def effectiveTypes (analysis_types : List String) : List String :=
  if analysis_types.isEmpty then valid_types else analysis_types

/-- The candidate page of `analyze_filtered_posts`. -/
def batchPosts (db : Db) (ft : FullText) (filters : PostFilterParams) : List Post :=
  (get_filtered_posts db ft filters).1

/-- The fanned-out per-post task outcomes of one `analyze_filtered_posts`
run, with the store state after all tasks have run. -/
def perPostRuns (A : PostsAnalyzer) (ft : FullText) (db : Db)
    (filters : PostFilterParams) (analysis_types : List String)
    (save_results : Bool) : List (Except StoreErr PostResult) × Db :=
  analyzeAllPosts A (effectiveTypes analysis_types) save_results
    (batchPosts db ft filters) db

/-- `PostsAnalyzer.analyze_filtered_posts`: query the filtered page, fan out
the per-post tasks, and await them as a whole (`asyncio.gather`), returning
the result list plus metadata or raising the first task failure. -/
def analyze_filtered_posts (A : PostsAnalyzer) (ft : FullText) (db : Db)
    (filters : PostFilterParams) (analysis_types : List String)
    (save_results : Bool) :
    Except StoreErr (List PostResult × BatchMetadata) × Db :=
  ((gatherResults (perPostRuns A ft db filters analysis_types save_results).1).map
    (fun l => (l,
      { total_posts := (get_filtered_posts db ft filters).2
        processed_posts := (batchPosts db ft filters).length
        analysis_types := effectiveTypes analysis_types })),
   (perPostRuns A ft db filters analysis_types save_results).2)

/-! ## Combined result assembly (`get_post_analysis_result`, endpoints) -/

/-- `PostAnalysisResult` schema: the merge of the latest rows, one optional
field per kind, plus the raw decoded payload map. -/
structure PostAnalysisResult where
  word_frequencies : Option (List WordFrequency) := none
  text_stats : Option TextStats := none
  extracted_tags : Option (List String) := none
  raw_analysis : List (String × AnalysisValue) := []
  deriving DecidableEq, Repr

/-- Decoding of a stored `word_frequency` payload:
`analysis_data.get("word_frequencies", [])`. -/
def decodeWordFrequencies (v : AnalysisValue) : List WordFrequency :=
  match v with
  | .wordFreq r => r.word_frequencies
  | _ => []

/-- Decoding of a stored `tags` payload:
`analysis_data.get("extracted_tags", [])`. -/
def decodeExtractedTags (v : AnalysisValue) : List String :=
  match v with
  | .tags r => r.extracted_tags
  | _ => []

/-- Decoding of a stored `text_stats` payload (`TextStats(**analysis_data)`;
a shape mismatch would raise in the source and never occurs for rows written
by this service — modelled as absence). -/
def decodeTextStats (v : AnalysisValue) : Option TextStats :=
  match v with
  | .textStats r => some r
  | _ => none

/-- The assembly block at the end of `get_post_analysis_result`: one field
per kind with a latest row, plus the raw payload map (set for exactly the
present kinds). -/
def assembleResult (wf ts tg : Option PostAnalysis) : PostAnalysisResult :=
  { word_frequencies := wf.map (fun r => decodeWordFrequencies r.result)
    text_stats := ts.bind (fun r => decodeTextStats r.result)
    extracted_tags := tg.map (fun r => decodeExtractedTags r.result)
    raw_analysis :=
      (match wf with
       | some r => [("word_frequency", r.result)]
       | none => [])
      ++ (match ts with
          | some r => [("text_stats", r.result)]
          | none => [])
      ++ (match tg with
          | some r => [("tags", r.result)]
          | none => []) }

/-- `PostsAnalyzer.get_post_analysis_result`: `None` for a missing post;
otherwise look up the three latest rows, optionally compute-and-record
exactly the missing kinds, re-read them and assemble the merged result. -/
def get_post_analysis_result (A : PostsAnalyzer) (db : Db) (post_id : Nat)
    (run_if_missing : Bool) :
    Except StoreErr (Option PostAnalysisResult) × Db :=
  match get_post db post_id with
  | none => (.ok none, db)
  | some post =>
    let wf0 := get_latest_post_analysis db post_id "word_frequency"
    let ts0 := get_latest_post_analysis db post_id "text_stats"
    let tg0 := get_latest_post_analysis db post_id "tags"
    if run_if_missing && (wf0.isNone || ts0.isNone || tg0.isNone) then
      let missing :=
        (if wf0.isNone then ["word_frequency"] else [])
        ++ (if ts0.isNone then ["text_stats"] else [])
        ++ (if tg0.isNone then ["tags"] else [])
      match _analyze_post A db post missing true with
      | (.error e, db') => (.error e, db')
      | (.ok _, db') =>
        let wf := if wf0.isNone
          then get_latest_post_analysis db' post_id "word_frequency" else wf0
        let ts := if ts0.isNone
          then get_latest_post_analysis db' post_id "text_stats" else ts0
        let tg := if tg0.isNone
          then get_latest_post_analysis db' post_id "tags" else tg0
        (.ok (some (assembleResult wf ts tg)), db')
    else (.ok (some (assembleResult wf0 ts0 tg0)), db)

/-- `GET /{post_id}/analyze`: 404 if the post is absent (the `get_post_by_id`
dependency) or if the service returns no result; otherwise the merged
result. -/
def analyze_post_endpoint (A : PostsAnalyzer) (db : Db) (post_id : Nat)
    (run_if_missing : Bool) : Except ApiError PostAnalysisResult × Db :=
  match get_post db post_id with
  | none => (.error (.notFound post_id), db)
  | some _ =>
    match get_post_analysis_result A db post_id run_if_missing with
    | (.ok none, db') => (.error (.notFound post_id), db')
    | (.ok (some r), db') => (.ok r, db')
    | (.error e, db') => (.error (.storeFailure e), db')

/-- The endpoint's post-processing loop: re-read each analyzed post's merged
result with `run_if_missing=False`, keeping the non-`None` ones. -/
def collectResults (A : PostsAnalyzer) :
    List PostResult → Db → Except StoreErr (List PostAnalysisResult) × Db
  | [], db => (.ok [], db)
  | r :: rest, db =>
    match get_post_analysis_result A db r.post_id false with
    | (.ok (some res), db') =>
      match collectResults A rest db' with
      | (.ok l, db'') => (.ok (res :: l), db'')
      | (.error e, db'') => (.error e, db'')
    | (.ok none, db') => collectResults A rest db'
    | (.error e, db') => (.error e, db')

/-- `POST /analyze` (`analyze_filtered_posts_endpoint`): reject any unknown
kind name with a 400 naming the first invalid kind and the valid set before
running anything; otherwise run the batch analysis and assemble the merged
per-post results. -/
def analyze_filtered_posts_endpoint (A : PostsAnalyzer) (ft : FullText)
    (db : Db) (filters : PostFilterParams) (analysis_types : List String)
    (save_results : Bool) : Except ApiError (List PostAnalysisResult) × Db :=
  match analysis_types.find? (fun t => !(valid_types.contains t)) with
  | some t => (.error (.badRequest t valid_types), db)
  | none =>
    match analyze_filtered_posts A ft db filters analysis_types save_results with
    | (.error e, db') => (.error (.storeFailure e), db')
    | (.ok (results, _), db') =>
      match collectResults A results db' with
      | (.ok l, db'') => (.ok l, db'')
      | (.error e, db'') => (.error (.storeFailure e), db'')

end PostsApp

namespace PostsApp

/-! ## Cooperative scheduling model of the bounded-concurrency fan-out

`analyze_filtered_posts` creates one coroutine per candidate post, each of
which enters `async with semaphore` (an `asyncio.Semaphore(max_workers)`)
before doing its work.  The single-process cooperative scheduler is modelled
as a transition system: a task is `waiting` before it has acquired a permit,
`running` between acquire and release, and `done` after release.  The
semaphore's permit count decreases on acquire (only possible when positive)
and increases on release. -/

inductive TaskPhase where
  | waiting
  | running
  | done
  deriving DecidableEq, Repr

/-- Scheduler state: free permits of the admission gate plus one phase per
fanned-out task. -/
structure SchedState where
  avail : Nat
  tasks : List TaskPhase
  deriving DecidableEq, Repr

/-- Number of per-post analyses currently executing. -/
def countRunning (s : SchedState) : Nat := s.tasks.count .running

/-- One cooperative scheduling step: some waiting task acquires a free
permit, or some running task finishes and releases its permit. -/
inductive SchedStep : SchedState → SchedState → Prop
  | acquire (pre post : List TaskPhase) (n : Nat) :
      SchedStep ⟨n + 1, pre ++ .waiting :: post⟩ ⟨n, pre ++ .running :: post⟩
  | release (pre post : List TaskPhase) (n : Nat) :
      SchedStep ⟨n, pre ++ .running :: post⟩ ⟨n + 1, pre ++ .done :: post⟩

/-- Reachability under cooperative scheduling. -/
inductive SchedReach (s0 : SchedState) : SchedState → Prop
  | refl : SchedReach s0 s0
  | step {s s' : SchedState} : SchedReach s0 s → SchedStep s s' → SchedReach s0 s'

/-- The initial scheduler state of one `analyze_filtered_posts` run: the
semaphore holds `max_workers` permits and one task is fanned out per
candidate post of the filtered page. -/
def batchSchedInit (A : PostsAnalyzer) (ft : FullText) (db : Db)
    (filters : PostFilterParams) : SchedState :=
  { avail := A.max_workers
    tasks := (batchPosts db ft filters).map (fun _ => .waiting) }

end PostsApp

namespace PostsApp

/-! ## Concrete fixtures

A simple concrete tokenizer (whitespace word splitting, sentence splitting
on `.`/`!`/`?`) and small concrete stores, used to instantiate the generic
theorems on closed inputs. -/

def splitWsAux (cur : List Char) : List Char → List (List Char)
  | [] => if cur.isEmpty then [] else [cur.reverse]
  | c :: t =>
    if c.isWhitespace then
      if cur.isEmpty then splitWsAux [] t else cur.reverse :: splitWsAux [] t
    else splitWsAux (c :: cur) t

def simpleWordTokenize (s : String) : List String :=
  (splitWsAux [] s.data).map String.mk

def splitSentAux (cur : List Char) : List Char → List (List Char)
  | [] => if cur.all Char.isWhitespace then [] else [cur.reverse]
  | c :: t =>
    if c = '.' || c = '!' || c = '?' then
      if cur.all Char.isWhitespace then splitSentAux [] t
      else cur.reverse :: splitSentAux [] t
    else splitSentAux (c :: cur) t

def simpleSentTokenize (s : String) : List String :=
  (splitSentAux [] s.data).map String.mk

def simpleTok : Tokenizer :=
  { wordTokenize := simpleWordTokenize, sentTokenize := simpleSentTokenize }

/-- A concrete analyzer configuration for closed instances. -/
def wAnalyzer : PostsAnalyzer :=
  { tok := simpleTok
    russian_stopwords := ["на"]
    english_stopwords := ["the", "and"] }

end PostsApp

namespace PostsApp

/-! ## Facts about the counting pipeline -/

lemma mem_firstOccsAux (l : List String) (seen : List String) (w : String) :
    w ∈ firstOccsAux seen l ↔ w ∈ l ∧ w ∉ seen := by
  induction l generalizing seen with
  | nil => simp [firstOccsAux]
  | cons x xs ih =>
    by_cases hx : x ∈ seen
    · have hc : seen.contains x = true := by simpa using hx
      rw [show firstOccsAux seen (x :: xs) = firstOccsAux seen xs by
        simp [firstOccsAux, hx], ih]
      constructor
      · exact fun ⟨h1, h2⟩ => ⟨List.mem_cons_of_mem x h1, h2⟩
      · rintro ⟨h1, h2⟩
        rcases List.mem_cons.mp h1 with rfl | h1
        · exact absurd hx h2
        · exact ⟨h1, h2⟩
    · have hc : seen.contains x = false := by simpa using hx
      rw [show firstOccsAux seen (x :: xs) = x :: firstOccsAux (x :: seen) xs by
        simp [firstOccsAux, hx]]
      rw [List.mem_cons, ih]
      by_cases hw : w = x
      · subst hw; simp [hx]
      · simp [hw, List.mem_cons]

lemma nodup_firstOccsAux (l : List String) (seen : List String) :
    (firstOccsAux seen l).Nodup := by
  induction l generalizing seen with
  | nil => simp [firstOccsAux]
  | cons x xs ih =>
    by_cases hx : x ∈ seen
    · have hc : seen.contains x = true := by simpa using hx
      rw [show firstOccsAux seen (x :: xs) = firstOccsAux seen xs by
        simp [firstOccsAux, hx]]
      exact ih seen
    · have hc : seen.contains x = false := by simpa using hx
      rw [show firstOccsAux seen (x :: xs) = x :: firstOccsAux (x :: seen) xs by
        simp [firstOccsAux, hx]]
      refine List.Nodup.cons ?_ (ih (x :: seen))
      intro hmem
      exact ((mem_firstOccsAux xs (x :: seen) x).mp hmem).2 (List.mem_cons_self x seen)

lemma length_firstOccs (l : List String) :
    (firstOccs l).length = l.toFinset.card := by
  have h1 : (firstOccs l).Nodup := nodup_firstOccsAux l []
  have h2 : (firstOccs l).toFinset = l.toFinset := by
    ext w
    simp [firstOccs, mem_firstOccsAux]
  rw [← List.toFinset_card_of_nodup h1, h2]

lemma countPairs_snd {ws : List String} {p : String × Nat}
    (hp : p ∈ countPairs ws) : p.2 = ws.count p.1 := by
  obtain ⟨w, _, rfl⟩ := List.mem_map.mp hp
  rfl

lemma rankedPairs_perm (ws : List String) :
    (rankedPairs ws).Perm (countPairs ws) :=
  List.perm_insertionSort countGe (countPairs ws)

lemma rankedPairs_sorted (ws : List String) :
    List.Sorted countGe (rankedPairs ws) :=
  List.sorted_insertionSort countGe (countPairs ws)

lemma rankedPairs_snd {ws : List String} {p : String × Nat}
    (hp : p ∈ rankedPairs ws) : p.2 = ws.count p.1 :=
  countPairs_snd ((rankedPairs_perm ws).mem_iff.mp hp)

lemma rankedPairs_length (ws : List String) :
    (rankedPairs ws).length = ws.toFinset.card := by
  rw [(rankedPairs_perm ws).length_eq]
  simp [countPairs, length_firstOccs]

end PostsApp

namespace PostsApp

/-- C5: for every input text, word-frequency analysis lower-cases the text,
replaces non-word non-space characters with spaces, tokenizes, retains
exactly the alphabetic tokens outside the union of the two configured
stop-word sets, and returns the top 20 retained words by descending count
(stable sort, ties in first-encountered order), each with frequency
`count / total_filtered_words` (0 if none), together with the number of
distinct retained words and the number of retained tokens. -/
theorem C5_word_frequency (A : PostsAnalyzer) (text : String) :
    filteredWords A text
      = (A.tok.wordTokenize (cleanText text)).filter
          (fun w => pyIsAlpha w
            && !(A.russian_stopwords.contains w || A.english_stopwords.contains w))
    ∧ (analyze_word_frequency A text).total_words_after_filtering
        = (filteredWords A text).length
    ∧ (analyze_word_frequency A text).total_unique_words
        = (filteredWords A text).toFinset.card
    ∧ (analyze_word_frequency A text).word_frequencies
        = ((rankedPairs (filteredWords A text)).take 20).map
            (fun p =>
              { word := p.1
                count := p.2
                frequency := if (filteredWords A text).length > 0
                  then (p.2 : ℚ) / (filteredWords A text).length else 0 })
    ∧ List.Sorted countGe (rankedPairs (filteredWords A text))
    ∧ (rankedPairs (filteredWords A text)).Perm
        (countPairs (filteredWords A text))
    ∧ (analyze_word_frequency A text).word_frequencies.Forall
        (fun e => e.count = (filteredWords A text).count e.word
          ∧ e.frequency = (if (filteredWords A text).length = 0 then 0
              else (e.count : ℚ) / (filteredWords A text).length)
          ∧ 0 ≤ e.frequency ∧ e.frequency ≤ 1)
    ∧ (analyze_word_frequency A text).word_frequencies.length
        = min 20 (filteredWords A text).toFinset.card := by
  refine ⟨?_, rfl, length_firstOccs _, rfl, rankedPairs_sorted _,
    rankedPairs_perm _, ?_, ?_⟩
  · unfold filteredWords allStopwords
    exact List.filter_congr (fun x _ => by simp)
  · rw [List.forall_iff_forall_mem]
    intro e he
    simp only [analyze_word_frequency, mostCommon] at he
    obtain ⟨p, hp, rfl⟩ := List.mem_map.mp he
    have hpr : p ∈ rankedPairs (filteredWords A text) :=
      List.take_subset _ _ hp
    have hc := rankedPairs_snd hpr
    refine ⟨hc, ?_, ?_, ?_⟩
    · by_cases h : (filteredWords A text).length = 0
      · simp [h]
      · simp [h, Nat.pos_of_ne_zero h]
    · by_cases h : (filteredWords A text).length = 0
      · simp [h]
      · simp only [h, Nat.pos_of_ne_zero h, if_pos]
        exact div_nonneg (Nat.cast_nonneg _) (Nat.cast_nonneg _)
    · by_cases h : (filteredWords A text).length = 0
      · simp [h]
      · simp only [h, Nat.pos_of_ne_zero h, if_pos]
        rw [div_le_one (by exact_mod_cast Nat.pos_of_ne_zero h)]
        exact_mod_cast hc ▸ List.count_le_length p.1 (filteredWords A text)
  · simp [analyze_word_frequency, mostCommon, List.length_take,
      rankedPairs_length]

end PostsApp

namespace PostsApp

/-! ## Rounding facts -/

lemma abs_pyRound_sub (x : ℚ) : |(pyRound x : ℚ) - x| ≤ 1 / 2 := by
  have h0 : (⌊x⌋ : ℚ) ≤ x := Int.floor_le x
  have h1 : x < ⌊x⌋ + 1 := Int.lt_floor_add_one x
  unfold pyRound
  split_ifs with ha hb hc
  · rw [abs_sub_comm, abs_of_nonneg (by linarith)]
    linarith
  · push_cast
    rw [abs_of_nonneg (by linarith)]
    linarith
  · rw [abs_sub_comm, abs_of_nonneg (by linarith)]
    linarith
  · push_cast
    rw [abs_of_nonneg (by linarith)]
    linarith

lemma abs_pyRound2_sub (x : ℚ) : |pyRound2 x - x| ≤ 1 / 200 := by
  have h := abs_pyRound_sub (100 * x)
  unfold pyRound2
  rw [show (pyRound (100 * x) : ℚ) / 100 - x
      = ((pyRound (100 * x) : ℚ) - 100 * x) / 100 by ring]
  rw [abs_div, abs_of_nonneg (by norm_num : (0 : ℚ) ≤ 100)]
  linarith

/-- C6: for every input text, text statistics report the raw character
count, the number of alphabetic word tokens, the sentence count, and the
2-decimal-rounded average word and sentence lengths (0 for the empty
denominators); in particular `avg_sentence_length` is within rounding
distance of `word_count / sentence_count`. -/
theorem C6_text_stats (A : PostsAnalyzer) (text : String) :
    (analyze_text_stats A text).char_count = text.length
    ∧ (analyze_text_stats A text).word_count
        = ((A.tok.wordTokenize text).filter pyIsAlpha).length
    ∧ (analyze_text_stats A text).sentence_count
        = (A.tok.sentTokenize text).length
    ∧ (analyze_text_stats A text).avg_word_length
        = pyRound2 (if 0 < ((A.tok.wordTokenize text).filter pyIsAlpha).length
            then ((((A.tok.wordTokenize text).filter pyIsAlpha).map
                String.length).sum : ℚ)
              / (((A.tok.wordTokenize text).filter pyIsAlpha).length : ℚ)
            else 0)
    ∧ (analyze_text_stats A text).avg_sentence_length
        = pyRound2 (if 0 < (A.tok.sentTokenize text).length
            then ((((A.tok.wordTokenize text).filter pyIsAlpha).length : ℚ))
              / ((A.tok.sentTokenize text).length : ℚ)
            else 0)
    ∧ |(analyze_text_stats A text).avg_sentence_length
        - (if (A.tok.sentTokenize text).length = 0 then 0
           else (((A.tok.wordTokenize text).filter pyIsAlpha).length : ℚ)
             / ((A.tok.sentTokenize text).length : ℚ))| ≤ 1 / 200 := by
  refine ⟨rfl, rfl, rfl, rfl, rfl, ?_⟩
  have heq : (if (A.tok.sentTokenize text).length = 0 then (0 : ℚ)
      else (((A.tok.wordTokenize text).filter pyIsAlpha).length : ℚ)
        / ((A.tok.sentTokenize text).length : ℚ))
      = (if 0 < (A.tok.sentTokenize text).length
         then (((A.tok.wordTokenize text).filter pyIsAlpha).length : ℚ)
           / ((A.tok.sentTokenize text).length : ℚ)
         else 0) := by
    by_cases h : (A.tok.sentTokenize text).length = 0
    · simp [h]
    · simp [h, Nat.pos_of_ne_zero h]
  rw [heq]
  exact abs_pyRound2_sub _

/-- C7: tag extraction returns the 10 most frequent words of the same
cleaning/filtering pipeline as word frequency (the 10-element prefix of the
word-frequency ranking), and every `#word` occurrence of the original
uncleaned text in order of appearance with duplicates and casing preserved;
on `"Great #AI and #MachineLearning news"` the hashtags are exactly
`["AI", "MachineLearning"]`. -/
theorem C7_extract_tags (A : PostsAnalyzer) (text : String) :
    (extract_tags A text).extracted_tags
      = ((rankedPairs (filteredWords A text)).take 10).map Prod.fst
    ∧ (extract_tags A text).extracted_tags
      = ((analyze_word_frequency A text).word_frequencies.map
          (fun e => e.word)).take 10
    ∧ (extract_tags A text).hashtags = findHashtags text
    ∧ findHashtags "Great #AI and #MachineLearning news"
        = ["AI", "MachineLearning"]
    ∧ findHashtags "#a b #a" = ["a", "a"] := by
  refine ⟨rfl, ?_, rfl, by decide, by decide⟩
  show (mostCommon 10 (filteredWords A text)).map Prod.fst = _
  simp only [analyze_word_frequency, mostCommon, List.map_map,
    ← List.map_take, List.take_take]
  norm_num
  rfl

end PostsApp

namespace PostsApp

/-! ## Facts about the analysis store -/

lemma pickLatest_acc_some (l : List PostAnalysis) (m : PostAnalysis) :
    ∃ r, pickLatest (some m) l = some r ∧ (r = m ∨ r ∈ l)
      ∧ m.created_at ≤ r.created_at
      ∧ ∀ x ∈ l, x.created_at ≤ r.created_at := by
  induction l generalizing m with
  | nil => exact ⟨m, rfl, Or.inl rfl, le_refl _, by simp⟩
  | cons x xs ih =>
    obtain ⟨r, heq, hmem, hle, hall⟩ :=
      ih (if m.created_at < x.created_at then x else m)
    refine ⟨r, heq, ?_, ?_, ?_⟩
    · rcases hmem with h | h
      · by_cases hc : m.created_at < x.created_at
        · rw [if_pos hc] at h
          exact Or.inr (h ▸ List.mem_cons_self x xs)
        · rw [if_neg hc] at h
          exact Or.inl h
      · exact Or.inr (List.mem_cons_of_mem x h)
    · refine le_trans ?_ hle
      by_cases hc : m.created_at < x.created_at
      · rw [if_pos hc]; exact le_of_lt hc
      · rw [if_neg hc]
    · intro y hy
      rcases List.mem_cons.mp hy with rfl | hy
      · refine le_trans ?_ hle
        by_cases hc : m.created_at < y.created_at
        · rw [if_pos hc]
        · rw [if_neg hc]; exact not_lt.mp hc
      · exact hall y hy

lemma pickLatest_spec (l : List PostAnalysis) :
    (pickLatest none l).elim (l = [])
      (fun r => r ∈ l ∧ ∀ x ∈ l, x.created_at ≤ r.created_at) := by
  cases l with
  | nil => rfl
  | cons x xs =>
    obtain ⟨r, heq, hmem, hle, hall⟩ := pickLatest_acc_some xs x
    rw [show pickLatest none (x :: xs) = pickLatest (some x) xs from rfl, heq]
    refine ⟨?_, ?_⟩
    · rcases hmem with h | h
      · rw [h]; exact List.mem_cons_self x xs
      · exact List.mem_cons_of_mem x h
    · intro y hy
      rcases List.mem_cons.mp hy with rfl | hy
      · exact hle
      · exact hall y hy

lemma pickLatest_unique_max (l : List PostAnalysis) (r : PostAnalysis)
    (hr : r ∈ l) (hmax : ∀ x ∈ l, x ≠ r → x.created_at < r.created_at) :
    pickLatest none l = some r := by
  have hspec := pickLatest_spec l
  cases heq : pickLatest none l with
  | none =>
    rw [heq] at hspec
    simp only [Option.elim] at hspec
    rw [hspec] at hr
    exact absurd hr (List.not_mem_nil r)
  | some r' =>
    rw [heq] at hspec
    simp only [Option.elim] at hspec
    obtain ⟨hmem, hall⟩ := hspec
    by_cases h : r' = r
    · rw [h]
    · have h1 := hmax r' hmem h
      have h2 := hall r hr
      exact absurd (lt_of_le_of_lt h2 h1) (lt_irrefl _)

lemma mem_matchingAnalyses {db : Db} {pid : Nat} {kind : String}
    {x : PostAnalysis} :
    x ∈ matchingAnalyses db pid kind
      ↔ x ∈ db.analyses ∧ x.post_id = pid ∧ x.analysis_type = kind := by
  simp [matchingAnalyses, List.mem_filter, and_assoc]

/-- Inversion of a successful `create_post_analysis`. -/
lemma create_ok_inv {db : Db} {a : PostAnalysisCreate} {row : PostAnalysis}
    {db' : Db} (h : create_post_analysis db a = .ok (row, db')) :
    row = ⟨a.post_id, a.analysis_type, a.result, db.clock⟩
    ∧ db' = { db with analyses := db.analyses ++ [row], clock := db.clock + 1 }
    ∧ db.failing_writes.contains (a.post_id, a.analysis_type) = false := by
  unfold create_post_analysis at h
  split_ifs at h with hf
  simp only [Except.ok.injEq, Prod.mk.injEq] at h
  obtain ⟨h1, h2⟩ := h
  refine ⟨h1.symm, ?_, by simpa using hf⟩
  rw [← h2, h1]

end PostsApp

namespace PostsApp

/-! ## Claims C3 and C4: the analysis cache -/

lemma analyzeOne_some_kind {A : PostsAnalyzer} {c t : String}
    {v : AnalysisValue} (h : analyzeOne A c t = some v) : t ∈ valid_types := by
  unfold analyzeOne at h
  split_ifs at h with h1 h2 h3
  · rw [h1]; decide
  · rw [h2]; decide
  · rw [h3]; decide

lemma analyzePostGo_mem (A : PostsAnalyzer) (post : Post) (save : Bool)
    (ts : List String) :
    ∀ (db : Db) (acc : List (String × AnalysisValue)),
      ∀ r ∈ ((analyzePostGo A post save ts db acc).2).analyses,
        r ∈ db.analyses ∨ r.analysis_type ∈ valid_types := by
  induction ts with
  | nil => exact fun db acc r hr => Or.inl hr
  | cons t ts ih =>
    intro db acc r hr
    cases hv : analyzeOne A post.content t with
    | none =>
      simp only [analyzePostGo, hv] at hr
      exact ih db acc r hr
    | some v =>
      cases save with
      | false =>
        simp [analyzePostGo, hv] at hr
        exact ih db _ r hr
      | true =>
        cases hc : create_post_analysis db ⟨post.id, t, v⟩ with
        | error e =>
          simp [analyzePostGo, hv, hc] at hr
          exact Or.inl hr
        | ok rdb =>
          obtain ⟨row, db'⟩ := rdb
          simp [analyzePostGo, hv, hc] at hr
          obtain ⟨hrow, hdb', _⟩ := create_ok_inv hc
          rcases ih db' _ r hr with h | h
          · rw [hdb'] at h
            simp only [List.mem_append, List.mem_singleton] at h
            rcases h with h | rfl
            · exact Or.inl h
            · rw [hrow]
              exact Or.inr (analyzeOne_some_kind hv)
          · exact Or.inr h

lemma analyze_post_snd (A : PostsAnalyzer) (db : Db) (post : Post)
    (ts : List String) (save : Bool) :
    (_analyze_post A db post ts save).2 = (analyzePostGo A post save ts db []).2 := by
  unfold _analyze_post
  rcases analyzePostGo A post save ts db [] with ⟨res, dbz⟩
  cases res <;> rfl

/-- Payload fixture without rational components (kernel-evaluable). -/
def tagsVal : AnalysisValue := .tags { extracted_tags := [], hashtags := [] }

def c3db : Db := { posts := [], categories := [], analyses := [] }

def c3row : PostAnalysis :=
  { post_id := 7, analysis_type := "sentiment", result := tagsVal, created_at := 0 }

def c3db2 : Db := { posts := [], categories := [], analyses := [c3row], clock := 1 }

/-- C3 counterexample: `create_post_analysis` performs no kind validation —
called with the unrecognized kind `"sentiment"` it succeeds (no
`ValidationError`) and the `"sentiment"` row is stored. -/
theorem C3_counterexample :
    create_post_analysis c3db ⟨7, "sentiment", tagsVal⟩ = .ok (c3row, c3db2)
    ∧ c3db2.analyses = [c3row]
    ∧ valid_types.contains "sentiment" = false := by decide

/-- C3 amended: `create_post_analysis` appends a new analysis row, never
overwriting or dropping an existing one, and accepts any kind string without
validation; kind validation lives upstream — the orchestration layer
(`_analyze_post`) skips unrecognized kinds, so every row it adds to the
store carries one of the three recognized kinds. -/
theorem C3_record_appends (db : Db) (a : PostAnalysisCreate)
    (row : PostAnalysis) (db' : Db)
    (h : create_post_analysis db a = .ok (row, db')) :
    db'.analyses = db.analyses ++ [row]
    ∧ row.post_id = a.post_id ∧ row.analysis_type = a.analysis_type
    ∧ row.result = a.result
    ∧ db'.posts = db.posts ∧ db'.categories = db.categories
    ∧ ∀ (B : PostsAnalyzer) (post : Post) (save : Bool) (ts : List String)
        (dbx : Db) (r : PostAnalysis),
        r ∈ ((_analyze_post B dbx post ts save).2).analyses →
        r ∈ dbx.analyses ∨ r.analysis_type ∈ valid_types := by
  obtain ⟨hrow, hdb', _⟩ := create_ok_inv h
  refine ⟨by rw [hdb'], by rw [hrow], by rw [hrow], by rw [hrow],
    by rw [hdb'], by rw [hdb'], ?_⟩
  intro B post save ts dbx r hr
  rw [analyze_post_snd] at hr
  exact analyzePostGo_mem B post save ts dbx [] r hr

def c3okrow : PostAnalysis :=
  { post_id := 5, analysis_type := "tags", result := tagsVal, created_at := 0 }

def c3okdb : Db := { posts := [], categories := [], analyses := [c3okrow], clock := 1 }

theorem C3_witness : c3okdb.analyses = c3db.analyses ++ [c3okrow] :=
  (C3_record_appends c3db ⟨5, "tags", tagsVal⟩ c3okrow c3okdb (by decide)).1

/-- C4: `get_latest_post_analysis` returns, for any store, the matching row
with the greatest creation timestamp (`None`, not an error, when no row
matches); in particular after recording two analyses of the same kind for
the same post the temporally later row is returned. -/
theorem C4_latest_analysis (dbq : Db) (pidq : Nat) (kindq : String)
    (db db1 db2 : Db) (pid : Nat) (kind : String) (p1 p2 : AnalysisValue)
    (row1 row2 : PostAnalysis)
    (hclock : db.analyses.all (fun r => decide (r.created_at < db.clock)) = true)
    (h1 : create_post_analysis db ⟨pid, kind, p1⟩ = .ok (row1, db1))
    (h2 : create_post_analysis db1 ⟨pid, kind, p2⟩ = .ok (row2, db2)) :
    ((get_latest_post_analysis dbq pidq kindq).elim
        (matchingAnalyses dbq pidq kindq = [])
        (fun r => r ∈ matchingAnalyses dbq pidq kindq
          ∧ ∀ x ∈ matchingAnalyses dbq pidq kindq,
              x.created_at ≤ r.created_at))
    ∧ get_latest_post_analysis db2 pid kind = some row2
    ∧ row1.created_at < row2.created_at := by
  obtain ⟨hrow1, hdb1, _⟩ := create_ok_inv h1
  obtain ⟨hrow2, hdb2, _⟩ := create_ok_inv h2
  have hallmem : ∀ x ∈ db.analyses, x.created_at < db.clock := by
    intro x hx
    have := List.all_eq_true.mp hclock x hx
    simpa using this
  have hc1 : row1.created_at = db.clock := by rw [hrow1]
  have hc2 : row2.created_at = db.clock + 1 := by
    rw [hrow2, hdb1]
  have hmem2 : row2 ∈ matchingAnalyses db2 pid kind := by
    rw [mem_matchingAnalyses, hdb2, hdb1]
    refine ⟨by simp [List.mem_append], ?_, ?_⟩
    · rw [hrow2]
    · rw [hrow2]
  refine ⟨pickLatest_spec _, ?_, by rw [hc1, hc2]; exact Nat.lt_succ_self _⟩
  apply pickLatest_unique_max _ _ hmem2
  intro x hx hne
  rw [mem_matchingAnalyses, hdb2, hdb1] at hx
  obtain ⟨hxa, _, _⟩ := hx
  simp only [List.mem_append, List.mem_singleton] at hxa
  rcases hxa with (hxa | rfl) | rfl
  · calc x.created_at < db.clock := hallmem x hxa
      _ < db.clock + 1 := Nat.lt_succ_self _
      _ = row2.created_at := hc2.symm
  · rw [hc1, hc2]; exact Nat.lt_succ_self _
  · exact absurd rfl hne

def c4db : Db := { posts := [], categories := [], analyses := [] }

def c4row1 : PostAnalysis :=
  { post_id := 1, analysis_type := "tags", result := tagsVal, created_at := 0 }

def c4db1 : Db := { posts := [], categories := [], analyses := [c4row1], clock := 1 }

def c4row2 : PostAnalysis :=
  { post_id := 1, analysis_type := "tags", result := tagsVal, created_at := 1 }

def c4db2 : Db :=
  { posts := [], categories := [], analyses := [c4row1, c4row2], clock := 2 }

theorem C4_witness :
    get_latest_post_analysis c4db2 1 "tags" = some c4row2
    ∧ c4row1.created_at < c4row2.created_at := by
  have h := C4_latest_analysis c4db2 1 "tags" c4db c4db1 c4db2 1 "tags"
    tagsVal tagsVal c4row1 c4row2 (by decide) (by decide) (by decide)
  exact ⟨h.2.1, h.2.2⟩

end PostsApp

namespace PostsApp

/-! ## Claim C8: filtered retrieval -/

def ftNone : FullText := fun _ _ => false

def c8db : Db := { posts := [], categories := [], analyses := [] }

def c8filters : PostFilterParams := { limit := 1, offset := 1 }

/-- C8 counterexample: with the valid parameters `limit = 1`, `offset = 1`
on a store whose filtered total is 0, the page is empty and
`offset + len(page) = 1 > 0 = total`. -/
theorem C8_counterexample :
    1 ≤ c8filters.limit ∧ c8filters.limit ≤ 100
    ∧ ¬ (c8filters.offset + ((get_filtered_posts c8db ftNone c8filters).1).length
        ≤ (get_filtered_posts c8db ftNone c8filters).2) := by decide

/-- C8 amended: for every store and valid filter parameters,
`len(page) ≤ limit`; `total` is the number of posts matching the same
predicate set with pagination ignored; `offset + len(page) ≤ total` holds
whenever `offset ≤ total`, and when `total ≤ offset` the page is empty (so
the original bound fails only in the over-paginated case); an empty search
string contributes no search predicate. -/
theorem C8_filtered_posts (db : Db) (ft : FullText) (f : PostFilterParams) :
    ((get_filtered_posts db ft f).1).length ≤ f.limit
    ∧ (get_filtered_posts db ft f).2
        = (db.posts.filter (postMatches db ft f)).length
    ∧ (f.offset ≤ (get_filtered_posts db ft f).2 →
        f.offset + ((get_filtered_posts db ft f).1).length
          ≤ (get_filtered_posts db ft f).2)
    ∧ ((get_filtered_posts db ft f).2 ≤ f.offset →
        (get_filtered_posts db ft f).1 = [])
    ∧ get_filtered_posts db ft { f with search_query := some "" }
        = get_filtered_posts db ft { f with search_query := none } := by
  refine ⟨?_, rfl, ?_, ?_, ?_⟩
  · simp only [get_filtered_posts, List.length_take]
    exact min_le_left _ _
  · intro h
    simp only [get_filtered_posts, get_posts_count, List.length_take,
      List.length_drop] at h ⊢
    calc f.offset + min f.limit ((db.posts.filter (postMatches db ft f)).length - f.offset)
        ≤ f.offset + ((db.posts.filter (postMatches db ft f)).length - f.offset) :=
          Nat.add_le_add_left (min_le_right _ _) _
      _ = (db.posts.filter (postMatches db ft f)).length := Nat.add_sub_cancel' h
  · intro h
    simp only [get_filtered_posts, get_posts_count] at h ⊢
    rw [List.drop_eq_nil_of_le h, List.take_nil]
  · have hpred : postMatches db ft { f with search_query := some "" }
        = postMatches db ft { f with search_query := none } := by
      funext p
      simp [postMatches]
    unfold get_filtered_posts get_posts_count
    rw [hpred]

def c8post : Post := { id := 1, category_id := 1, content := "hello", title := none }

def c8db2 : Db := { posts := [c8post], categories := [], analyses := [] }

def c8f2 : PostFilterParams := { limit := 10, offset := 0 }

theorem C8_witness :
    ((get_filtered_posts c8db2 ftNone c8f2).1).length ≤ c8f2.limit
    ∧ c8f2.offset + ((get_filtered_posts c8db2 ftNone c8f2).1).length
        ≤ (get_filtered_posts c8db2 ftNone c8f2).2 := by
  have h := C8_filtered_posts c8db2 ftNone c8f2
  exact ⟨h.1, h.2.2.1 (by decide)⟩

end PostsApp

namespace PostsApp

/-! ## Claim C9: empty-but-present merged result -/

/-- The empty-but-present merged result: all three fields absent. -/
def emptyAnalysisResult : PostAnalysisResult :=
  { word_frequencies := none
    text_stats := none
    extracted_tags := none
    raw_analysis := [] }

lemma get_latest_none_of_no_rows {db : Db} {pid : Nat} {kind : String}
    (h : ∀ r ∈ db.analyses, r.post_id ≠ pid) :
    get_latest_post_analysis db pid kind = none := by
  unfold get_latest_post_analysis
  have hm : matchingAnalyses db pid kind = [] := by
    unfold matchingAnalyses
    rw [List.filter_eq_nil_iff]
    intro r hr
    simp [h r hr]
  rw [hm]
  rfl

/-- C9: with `run_if_missing = false`, an existing post with zero analysis
rows yields an assembled result whose three analysis fields are all absent
(empty-but-present, no error), while a nonexistent post yields no result
from the service and a 404 from the endpoint. -/
theorem C9_empty_result (A : PostsAnalyzer) (db : Db) (pid : Nat) :
    (((get_post db pid).isSome = true) →
      (db.analyses.all (fun r => decide (r.post_id ≠ pid)) = true) →
      get_post_analysis_result A db pid false
        = (.ok (some emptyAnalysisResult), db))
    ∧ (get_post db pid = none →
        get_post_analysis_result A db pid false = (.ok none, db)
        ∧ analyze_post_endpoint A db pid false = (.error (.notFound pid), db)) := by
  constructor
  · intro h1 h2
    obtain ⟨p, hp⟩ := Option.isSome_iff_exists.mp h1
    have hlat : ∀ kind, get_latest_post_analysis db pid kind = none := by
      intro kind
      refine get_latest_none_of_no_rows ?_
      intro r hr
      simpa using List.all_eq_true.mp h2 r hr
    unfold get_post_analysis_result
    rw [hp]
    simp [hlat, assembleResult, emptyAnalysisResult]
  · intro h
    constructor
    · unfold get_post_analysis_result
      rw [h]
    · unfold analyze_post_endpoint
      rw [h]

def c9post : Post := { id := 1, category_id := 1, content := "hi", title := none }

def c9db : Db := { posts := [c9post], categories := [], analyses := [] }

theorem C9_witness :
    get_post_analysis_result wAnalyzer c9db 1 false
      = (.ok (some emptyAnalysisResult), c9db)
    ∧ analyze_post_endpoint wAnalyzer c8db 1 false
        = (.error (.notFound 1), c8db) := by
  have h1 := (C9_empty_result wAnalyzer c9db 1).1 (by decide) (by decide)
  have h2 := ((C9_empty_result wAnalyzer c8db 1).2 (by decide)).2
  exact ⟨h1, h2⟩

/-! ## Claim C2: unknown kinds rejected before dispatch -/

/-- C2: when the requested kinds list contains a name outside the valid set,
the batch endpoint fails with a 400 naming the (first) invalid kind and
listing the valid set, with the store left untouched — before any post is
analyzed and before any write. -/
theorem C2_invalid_kind (A : PostsAnalyzer) (ft : FullText) (db : Db)
    (f : PostFilterParams) (save : Bool) (types : List String) (t : String)
    (h : types.find? (fun s => !(valid_types.contains s)) = some t) :
    analyze_filtered_posts_endpoint A ft db f types save
      = (.error (.badRequest t valid_types), db)
    ∧ t ∈ types ∧ valid_types.contains t = false := by
  refine ⟨?_, List.mem_of_find?_eq_some h, ?_⟩
  · unfold analyze_filtered_posts_endpoint
    rw [h]
  · have := List.find?_some h
    simpa using this

theorem C2_witness :
    analyze_filtered_posts_endpoint wAnalyzer ftNone c8db {} ["sentiment"] true
      = (.error (.badRequest "sentiment" valid_types), c8db) :=
  (C2_invalid_kind wAnalyzer ftNone c8db {} true ["sentiment"] "sentiment"
    (by decide)).1

end PostsApp

namespace PostsApp

/-! ## Claim C1: per-post failure is not isolated -/

lemma isOk_map {e a b : Type} (f : a → b) (x : Except e a) :
    (x.map f).isOk = x.isOk := by
  cases x <;> rfl

lemma gatherResults_isOk (l : List (Except StoreErr PostResult)) :
    (gatherResults l).isOk = l.all Except.isOk := by
  induction l with
  | nil => rfl
  | cons x xs ih =>
    cases x with
    | error e => rfl
    | ok r =>
      simp only [gatherResults, List.all_cons, isOk_map, ih]
      rfl

lemma analyzeAllPosts_length (A : PostsAnalyzer) (ts : List String)
    (save : Bool) (ps : List Post) :
    ∀ db, ((analyzeAllPosts A ts save ps db).1).length = ps.length := by
  induction ps with
  | nil => intro db; rfl
  | cons p ps ih =>
    intro db
    simp [analyzeAllPosts, ih]

def c1post1 : Post := { id := 1, category_id := 1, content := "a", title := none }

def c1post2 : Post := { id := 2, category_id := 1, content := "b", title := none }

def c1db : Db :=
  { posts := [c1post1, c1post2]
    categories := []
    analyses := []
    failing_writes := [(1, "text_stats")]
    clock := 0 }

def c1filters : PostFilterParams := { limit := 10, offset := 0 }

/-- C1 counterexample: with a store that transiently fails persisting post
1's `text_stats` row, the aggregate batch call fails wholesale with the
store error — no batch result with a per-post failure record is returned —
even though the filtered query succeeded and post 2's analysis on its own
succeeds. -/
theorem C1_counterexample :
    (analyze_filtered_posts wAnalyzer ftNone c1db c1filters ["text_stats"] true).1
      = .error .storeErr
    ∧ (_analyze_post wAnalyzer c1db c1post2 ["text_stats"] true).1.isOk = true := by
  decide

/-- C1 amended: a failure while analyzing or persisting one post is NOT
isolated — the aggregate call succeeds exactly when every fanned-out
per-post task succeeds, so any single task failure fails the whole call
(the first exception propagates, and no per-post failure record is
returned); sibling tasks still run and their store effects still happen
(the final store state is that of the full fan-out), with one task per
candidate post. -/
theorem C1_batch_failure (A : PostsAnalyzer) (ft : FullText) (db : Db)
    (f : PostFilterParams) (types : List String) (save : Bool) :
    ((analyze_filtered_posts A ft db f types save).1).isOk
      = ((perPostRuns A ft db f types save).1).all Except.isOk
    ∧ (analyze_filtered_posts A ft db f types save).2
        = (perPostRuns A ft db f types save).2
    ∧ ((perPostRuns A ft db f types save).1).length
        = (batchPosts db ft f).length := by
  refine ⟨?_, rfl, ?_⟩
  · simp only [analyze_filtered_posts, isOk_map, gatherResults_isOk]
  · exact analyzeAllPosts_length A (effectiveTypes types) save _ db

/-! ## Claim C10: bounded concurrency -/

lemma schedStep_invariant {s s' : SchedState} (h : SchedStep s s') :
    countRunning s' + s'.avail = countRunning s + s.avail := by
  cases h with
  | acquire pre post n =>
    simp [countRunning, List.count_append, List.count_cons]
    omega
  | release pre post n =>
    simp [countRunning, List.count_append, List.count_cons]
    omega

lemma schedReach_invariant {s0 s : SchedState} (h : SchedReach s0 s) :
    countRunning s + s.avail = countRunning s0 + s0.avail := by
  induction h with
  | refl => rfl
  | step _ hs ih => rw [schedStep_invariant hs, ih]

/-- C10: during any cooperative scheduling of one `analyze_filtered_posts`
run — one task fanned out per candidate post, each gated by the counting
semaphore of capacity `max_workers` — at most `max_workers` per-post
analyses are running at any reachable state. -/
theorem C10_bounded_concurrency (A : PostsAnalyzer) (ft : FullText) (db : Db)
    (f : PostFilterParams) (s : SchedState)
    (h : SchedReach (batchSchedInit A ft db f) s) :
    countRunning s ≤ A.max_workers
    ∧ (batchSchedInit A ft db f).tasks.length = (batchPosts db ft f).length := by
  have hinv := schedReach_invariant h
  have h0 : countRunning (batchSchedInit A ft db f) = 0 := by
    simp only [countRunning, batchSchedInit]
    rw [List.count_eq_zero]
    intro hmem
    obtain ⟨p, _, hcontr⟩ := List.mem_map.mp hmem
    exact absurd hcontr (by simp)
  constructor
  · have : countRunning s + s.avail = 0 + A.max_workers := by
      rw [hinv, h0]; rfl
    omega
  · simp [batchSchedInit]

def c10A : PostsAnalyzer := { wAnalyzer with max_workers := 2 }

def c10post3 : Post := { id := 3, category_id := 1, content := "c", title := none }

def c10db : Db :=
  { posts := [c1post1, c1post2, c10post3], categories := [], analyses := [] }

theorem C10_witness :
    countRunning ⟨1, [.running, .waiting, .waiting]⟩ ≤ c10A.max_workers := by
  have h := C10_bounded_concurrency c10A ftNone c10db c1filters
    ⟨1, [.running, .waiting, .waiting]⟩
    (SchedReach.step SchedReach.refl
      (SchedStep.acquire [] [.waiting, .waiting] 1))
  exact h.1

end PostsApp
